import Mathlib

/-!
Verification of the busylib log-lifecycle subsystem against its specification.

The embedded code is `src/src/logger.rs` together with the pieces of
`src/src/config.rs` and `src/src/errors.rs` it uses: the path resolver
`log_path`, the logger pipeline `init_logger` (filter wiring between the
console sink and the file sink), the retention cleaner
`LogCleaner::cleanup_files_immediately`, and the cleanup scheduler
`LogCleaner::schedule_cleanup_log_files`.

Modelling conventions:
- The filesystem, the process environment, the wall clock and the scheduling
  engine are oracles passed in explicitly. Each `Utc::now()` call in the
  source reads the next value of a clock oracle `Nat → Int` (seconds);
  timestamps are modelled at second granularity.
- Rust `Result` is embedded as `Result` below; `RemoveFilesError` (a struct
  holding a `details` string in the source) is embedded as an inductive whose
  constructors correspond to the distinct message formats built at the three
  failure sites of `cleanup_files_immediately` plus the
  `From<JobSchedulerError>` conversion, each carrying the underlying error
  text that the source interpolates into `details`.
-/

namespace Busylib

/-- Rust `Result<T, E>` as used throughout `logger.rs`. -/
inductive Result (ε : Type) (α : Type) where
  | ok (val : α)
  | err (e : ε)
deriving DecidableEq, Repr

/-- Embedding of `RemoveFilesError` (src/src/errors.rs). The source stores a single
`details` string; the constructors here correspond one-to-one to the four distinct
formats that string is built with, each carrying the interpolated parts:
`directoryUnreadable` for "An error occurred in reading the directory …",
`metadataUnavailable` for "An error occurred in getting file modified time …",
`deleteFailed` for "delete file failed, path: {path}, error: {e}" (it carries the path),
and `schedulerError` for the `From<tokio_cron_scheduler::JobSchedulerError>` conversion. -/
inductive RemoveFilesError where
  | directoryUnreadable (ioErr : String)
  | metadataUnavailable (ioErr : String)
  | deleteFailed (path : String) (ioErr : String)
  | schedulerError (details : String)
deriving DecidableEq, Repr

/-- Oracle for the state of one directory and the filesystem operations the cleaner
performs on it. `readDir` is the result of `fs::read_dir`: on success a list of
iteration outcomes, where `none` stands for an `Err` item produced while iterating
(the source's `paths.flatten()` drops those) and `some p` for an entry with path `p`.
`modifiedTime` is `fs::metadata(&path).and_then(|m| m.modified())` in seconds;
`removeFile` is `fs::remove_file(&path)`. Error strings are the underlying io error
text. -/
structure FileSystem where
  readDir : Result String (List (Option String))
  modifiedTime : String → Result String Int
  removeFile : String → Result String Unit

/-- Embedding of `chrono::Duration::num_days` at second granularity: the number of
whole days in a duration of `seconds` seconds, truncated toward zero exactly as
chrono does (`num_seconds() / 86400` with Rust `i64` division). -/
def numDays (seconds : Int) : Int := Int.tdiv seconds 86400

/-- Embedding of the `LogCleaner` struct (src/src/logger.rs lines 80-104):
`dir : P`, `days : i64`, an optional cron expression and a caller-supplied
error handler. -/
structure LogCleaner (P H : Type) where
  dir : P
  days : Int
  cron_expression : Option String
  error_handler : H

/-- Embedding of `LogCleaner::new`: stores the four fields unchanged, with no
validation of `days`. -/
def LogCleaner.new {P H : Type} (dir : P) (days : Int) (cron_expression : Option String)
    (error_handler : H) : LogCleaner P H :=
  { dir := dir, days := days, cron_expression := cron_expression,
    error_handler := error_handler }

/-- The `for path in paths.flatten().map(|e| e.path())` loop of
`cleanup_files_immediately`. `k` counts the `Utc::now()` calls made so far in this
run (the source calls `Utc::now()` freshly for each entry whose metadata read
succeeded, inside the age comparison); `deleted` accumulates the paths removed so
far, i.e. the run's filesystem mutations. An `Err` iteration item (`none`) is
dropped by `flatten` and processed no further; a metadata failure or a delete
failure aborts the run immediately with the corresponding error, returning the
deletions performed up to that point. -/
def cleanupSweep (days : Int) (clock : Nat → Int) (fs : FileSystem) :
    List (Option String) → Nat → List String →
    Result RemoveFilesError Unit × List String
  | [], _, deleted => (.ok (), deleted)
  | none :: rest, k, deleted => cleanupSweep days clock fs rest k deleted
  | some path :: rest, k, deleted =>
    match fs.modifiedTime path with
    | .err e => (.err (.metadataUnavailable e), deleted)
    | .ok modified =>
      if numDays (clock k - modified) > days then
        match fs.removeFile path with
        | .err e => (.err (.deleteFailed path e), deleted)
        | .ok _ => cleanupSweep days clock fs rest (k + 1) (deleted ++ [path])
      else cleanupSweep days clock fs rest (k + 1) deleted

/-- Embedding of `LogCleaner::cleanup_files_immediately` (src/src/logger.rs
lines 114-135). Returns the Rust return value paired with the list of paths the
run deleted, in deletion order. A `read_dir` failure aborts before any deletion. -/
def LogCleaner.cleanup_files_immediately {P H : Type} (c : LogCleaner P H)
    (clock : Nat → Int) (fs : FileSystem) :
    Result RemoveFilesError Unit × List String :=
  match fs.readDir with
  | .err e => (.err (.directoryUnreadable e), [])
  | .ok entries => cleanupSweep c.days clock fs entries 0 []

/-- The age test of the cleanup loop as a predicate on one path: the path's
metadata is readable and its whole-day age measured against the instant `now`
strictly exceeds `days`. This is the condition under which the loop deletes the
path when the clock reads `now`. -/
def isStale (days now : Int) (fs : FileSystem) (p : String) : Bool :=
  match fs.modifiedTime p with
  | .ok m => decide (numDays (now - m) > days)
  | .err _ => false

/-- Modelled from the spec: the specification's reading of time capture, in which
"now" is captured once per run ("capture once per run, not per entry, to keep a
consistent cutoff"). The single captured instant is the run's first clock reading,
so this is the source function run against the constant clock `fun _ => clock 0`. -/
def LogCleaner.cleanup_once_captured {P H : Type} (c : LogCleaner P H)
    (clock : Nat → Int) (fs : FileSystem) :
    Result RemoveFilesError Unit × List String :=
  c.cleanup_files_immediately (fun _ => clock 0) fs

/-- Oracle for the process environment as read by `log_path`, `dev_mode` and
`init_logger`: `argv1` is `env::args().nth(1)`, `vars` is `env::var` with its
error collapsed to `none`, and `temp_dir` is `env::temp_dir()`. -/
structure Env where
  argv1 : Option String
  vars : String → Option String
  temp_dir : String

/-- Embedding of `dev_mode` (src/src/config.rs): the first process argument equals
the sentinel token "dev". -/
def dev_mode (env : Env) : Bool := env.argv1 == some "dev"

/-- Modelled from the spec: `debug_mode`, imported by `logger.rs` from the `config`
module, is not present under `src/` (config.rs defines only `dev_mode`). The spec
says development mode is "detected via a process-start argument equal to a fixed
sentinel token", which is exactly the `dev_mode` check, so `debug_mode` is modelled
as that same check. -/
def debug_mode (env : Env) : Bool := env.argv1 == some "dev"

/-- Embedding of `log_path` (src/src/logger.rs lines 187-216): in development mode
the platform temporary directory; otherwise an explicit path, trimmed; otherwise the
named environment variable's value when set; otherwise the fixed default
"/opt/logs/apps/". The `debug!` and `warn!` calls emit log records only and are not
modelled. -/
def log_path (env : Env) (lp : Option String) (env_log_path_key : Option String) :
    String :=
  if debug_mode env then env.temp_dir
  else
    match lp with
    | some p => p.trim
    | none =>
      let default_log_path := "/opt/logs/apps/"
      match env_log_path_key with
      | some key =>
        match env.vars key with
        | some v => v
        | none => default_log_path
      | none => default_log_path

/-- Severity levels used by `init_logger` (`filter::LevelFilter::DEBUG` /
`filter::LevelFilter::INFO`). -/
inductive LevelFilter where
  | DEBUG
  | INFO
deriving DecidableEq, Repr

/-- Embedding of `tracing_subscriber::filter::Targets`: a list of
(target, level) pairs. -/
abbrev Targets := List (String × LevelFilter)

/-- Embedding of `Targets::new()`: no targets. -/
def Targets.new : Targets := []

/-- Embedding of `Targets::with_target`: records one more (target, level) pair. -/
def Targets.with_target (t : Targets) (target : String) (lf : LevelFilter) : Targets :=
  t ++ [(target, lf)]

/-- How a sink's filter is wired in `init_logger`: `viaReload` means the sink reads
the reloadable cell created by `reload::Layer::new` (the `filter` layer wrapped
around `stdout_log`); `staticCopy t` means the sink holds its own fixed copy `t`
of a filter value (the file layer's `.with_filter(base_filter)`). -/
inductive FilterRef where
  | viaReload
  | staticCopy (t : Targets)
deriving DecidableEq

/-- The observable wiring produced by `init_logger`: the initial content of the one
reloadable filter cell (whose handle is returned to the caller), the filter
reference of each sink, and the resolved log directory used for the file appender. -/
structure LoggerSetup where
  cellInit : Targets
  consoleFilter : FilterRef
  fileFilter : FilterRef
  log_directory : String

/-- Embedding of `init_logger` (src/src/logger.rs lines 30-74). The severity level
is DEBUG when `debug` else INFO; `base_filter` holds `bin_name` and every crate in
`crates_to_log` at that level; `reload::Layer::new(base_filter.clone())` creates the
reloadable cell, wrapped around the stdout layer only, while the file layer is
built with `.with_filter(base_filter)`, a fixed copy. -/
def init_logger (env : Env) (bin_name : String) (crates_to_log : List String)
    (debug : Bool) (log_directory : Option String) : LoggerSetup :=
  let level_filter := if debug then LevelFilter.DEBUG else LevelFilter.INFO
  let dir := match log_directory with
    | some d => d
    | none => log_path env none none
  let base_filter := crates_to_log.foldl
    (fun acc c => acc.with_target c level_filter)
    (Targets.new.with_target bin_name level_filter)
  { cellInit := base_filter
    consoleFilter := FilterRef.viaReload
    fileFilter := FilterRef.staticCopy base_filter
    log_directory := dir }

/-- Embedding of `Handle::modify` with the closure `|filter| *filter = new_filter`
(the operation a threshold change performs through the returned `LogHandle`): the
reloadable cell's content is replaced by the new filter. -/
def reloadModify (_cell : Targets) (new_filter : Targets) : Targets := new_filter

/-- The filter a sink observes, given the current content of the reloadable cell. -/
def effectiveFilter (cell : Targets) : FilterRef → Targets
  | .viaReload => cell
  | .staticCopy t => t

/-- One scheduled trigger's context: the clock oracle and the directory state at
that trigger. -/
structure TriggerCtx where
  clock : Nat → Int
  fs : FileSystem

/-- The async closure registered by `schedule_cleanup_log_files` (src/src/logger.rs
lines 157-170), run at one trigger: it runs `cleanup_files_immediately`; on `Err(e)`
it calls `error_handler.handle_error(e)` and swallows the error, then sleeps until
the next tick. The returned list is the error-handler invocations this trigger
performs. -/
def triggerBody {P H : Type} (c : LogCleaner P H) (t : TriggerCtx) :
    List RemoveFilesError :=
  match (c.cleanup_files_immediately t.clock t.fs).1 with
  | .err e => [e]
  | .ok _ => []

/-- The recurring schedule: the trigger bodies run one after another (a single
schedule never overlaps itself), concatenating their error-handler invocations.
The list argument models the first finitely many triggers of the unbounded
schedule. -/
def scheduleRun {P H : Type} (c : LogCleaner P H) :
    List TriggerCtx → List RemoveFilesError
  | [] => []
  | t :: rest => triggerBody c t ++ scheduleRun c rest

/-- Oracle for the scheduling engine's fallible registration steps:
`new_err` for `JobScheduler::new()`, `job_new_err` for `Job::new_async` as a
function of the cron expression handed to it (a malformed expression yields
`some` parse-error text), `add_err` for `sched.add(..)` and `start_err` for
`sched.start()`. Each error string is converted into `RemoveFilesError` by the
`From<JobSchedulerError>` impl. -/
structure SchedEnv where
  new_err : Option String
  job_new_err : String → Option String
  add_err : Option String
  start_err : Option String

/-- The cron expression the job is registered with:
`self.cron_expression.unwrap_or("0 0 0 * * * *".to_string())`. -/
def LogCleaner.effective_cron {P H : Type} (c : LogCleaner P H) : String :=
  c.cron_expression.getD "0 0 0 * * * *"

/-- Embedding of `LogCleaner::schedule_cleanup_log_files` (src/src/logger.rs lines
150-175). Each fallible registration step (`JobScheduler::new`, `Job::new_async`
with the effective cron expression, `sched.add`, `sched.start`) is sequenced with
`?`: its failure is returned to the caller at once, before any trigger runs.
When registration succeeds the triggers run; the first component is the Rust
return value, the second the error-handler invocations across the given
triggers. -/
def LogCleaner.schedule_cleanup_log_files {P H : Type} (c : LogCleaner P H)
    (env : SchedEnv) (triggers : List TriggerCtx) :
    Result RemoveFilesError Unit × List RemoveFilesError :=
  match env.new_err with
  | some e => (.err (.schedulerError e), [])
  | none =>
    match env.job_new_err c.effective_cron with
    | some e => (.err (.schedulerError e), [])
    | none =>
      match env.add_err with
      | some e => (.err (.schedulerError e), [])
      | none =>
        match env.start_err with
        | some e => (.err (.schedulerError e), [])
        | none => (.ok (), scheduleRun c triggers)

/-- Rust `Result::is_ok`. -/
def Result.isOk {ε α : Type} : Result ε α → Bool
  | .ok _ => true
  | .err _ => false

/-! Concrete inputs used by the witness theorems below. -/

/-- A directory holding one stale file (modified at second 0) and one fresh file
(modified at day 40), with all operations succeeding. -/
def fsStale : FileSystem :=
  { readDir := .ok [some "old.log", some "new.log"]
    modifiedTime := fun p =>
      if p = "old.log" then .ok 0
      else if p = "new.log" then .ok (86400 * 40) else .err "missing"
    removeFile := fun _ => .ok () }

/-- The directory of `fsStale` after its stale file has been removed. -/
def fsCleaned : FileSystem :=
  { fsStale with readDir := .ok [some "new.log"] }

/-- A cleaner with the 30-day retention of the source's own tests. -/
def cleanerThirty : LogCleaner String Unit :=
  LogCleaner.new "/opt/logs/apps/" 30 none ()

/-- An observation instant of 41 whole days: "old.log" is then 41 days old and
"new.log" one day old. -/
def nowAt41 : Int := 86400 * 41

/-- A directory of two files both modified at second 0, all operations
succeeding. -/
def fsTwo : FileSystem :=
  { readDir := .ok [some "a.log", some "b.log"]
    modifiedTime := fun _ => .ok 0
    removeFile := fun _ => .ok () }

/-- A clock that advances across one day boundary between the first and the
second reading. -/
def clockDrift : Nat → Int := fun k => if k = 0 then 86000 else 90000

/-- A cleaner with zero-day retention. -/
def cleanerZero : LogCleaner String Unit :=
  LogCleaner.new "/opt/logs/apps/" 0 none ()

/-- A cleaner with negative retention, as `LogCleaner::new` accepts without
validation. -/
def cleanerNeg : LogCleaner String Unit :=
  LogCleaner.new "/opt/logs/apps/" (-1) none ()

/-- A directory whose listing itself fails. -/
def fsUnreadable : FileSystem :=
  { readDir := .err "permission denied"
    modifiedTime := fun _ => .err "unreachable"
    removeFile := fun _ => .err "unreachable" }

/-- A directory where the second entry's metadata read fails. -/
def fsBadMeta : FileSystem :=
  { readDir := .ok [some "old.log", some "ghost.log", some "late.log"]
    modifiedTime := fun p =>
      if p = "ghost.log" then .err "stat failed" else .ok 0
    removeFile := fun _ => .ok () }

/-- A directory where deleting the second (stale) entry fails. -/
def fsBadDelete : FileSystem :=
  { readDir := .ok [some "old.log", some "locked.log", some "late.log"]
    modifiedTime := fun _ => .ok 0
    removeFile := fun p =>
      if p = "locked.log" then .err "busy" else .ok () }

/-- A process environment in development mode. -/
def envDev : Env :=
  { argv1 := some "dev", vars := fun _ => none, temp_dir := "/tmp" }

/-- A production-mode process environment with LOG_PATH set. -/
def envProd : Env :=
  { argv1 := some "serve"
    vars := fun k => if k = "LOG_PATH" then some "/xx/xx" else none
    temp_dir := "/tmp" }

/-- A scheduling engine whose registration steps all succeed. -/
def schedOk : SchedEnv :=
  { new_err := none, job_new_err := fun _ => none, add_err := none,
    start_err := none }

/-- A scheduling engine whose creation fails. -/
def schedNewFails : SchedEnv :=
  { schedOk with new_err := some "engine down" }

/-- A scheduling engine rejecting every cron expression. -/
def schedBadCron : SchedEnv :=
  { schedOk with job_new_err := fun c => some ("bad cron: " ++ c) }

/-- A scheduling engine whose job registration fails. -/
def schedAddFails : SchedEnv :=
  { schedOk with add_err := some "add failed" }

/-- A scheduling engine whose start fails. -/
def schedStartFails : SchedEnv :=
  { schedOk with start_err := some "start failed" }

/-- A trigger over the unreadable directory with a constant clock. -/
def trigFail : TriggerCtx := { clock := fun _ => nowAt41, fs := fsUnreadable }

/-- A trigger over the stale directory with a constant clock. -/
def trigOk : TriggerCtx := { clock := fun _ => nowAt41, fs := fsStale }

/-! Helper lemmas about the cleanup loop, shared by the claim theorems below. -/

/-- Processing a prefix of entries whose metadata reads and deletions all succeed,
under a constant clock: the loop runs through the prefix, consuming one clock
reading per entry and deleting exactly the stale ones, then continues with the
remaining entries. -/
theorem cleanupSweep_front_ok (days now : Int) (fs : FileSystem)
    (pre : List String) (rest : List (Option String)) :
    ∀ (k : Nat) (acc : List String),
    (∀ p ∈ pre, (fs.modifiedTime p).isOk = true) →
    (∀ p ∈ pre, (fs.removeFile p).isOk = true) →
    cleanupSweep days (fun _ => now) fs (pre.map some ++ rest) k acc =
      cleanupSweep days (fun _ => now) fs rest (k + pre.length)
        (acc ++ pre.filter (isStale days now fs)) := by
  induction pre with
  | nil => intro k acc _ _; simp
  | cons p ps ih =>
    intro k acc hmeta hrm
    have hm := hmeta p (List.mem_cons_self p ps)
    have hr := hrm p (List.mem_cons_self p ps)
    have hmeta' : ∀ q ∈ ps, (fs.modifiedTime q).isOk = true :=
      fun q hq => hmeta q (List.mem_cons_of_mem _ hq)
    have hrm' : ∀ q ∈ ps, (fs.removeFile q).isOk = true :=
      fun q hq => hrm q (List.mem_cons_of_mem _ hq)
    simp only [List.map_cons, List.cons_append, cleanupSweep]
    cases hmp : fs.modifiedTime p with
    | err e => rw [hmp] at hm; simp [Result.isOk] at hm
    | ok m =>
      simp only []
      by_cases hstale : numDays (now - m) > days
      · have hs : isStale days now fs p = true := by
          simp [isStale, hmp, hstale]
        simp only [if_pos hstale]
        cases hrp : fs.removeFile p with
        | err e => rw [hrp] at hr; simp [Result.isOk] at hr
        | ok u =>
          simp only [List.append_eq]
          rw [ih (k + 1) (acc ++ [p]) hmeta' hrm']
          have hk : k + 1 + ps.length = k + (p :: ps).length := by
            simp [List.length_cons]; omega
          rw [hk]
          simp [List.filter_cons, hs, List.append_assoc]
      · have hs : isStale days now fs p = false := by
          simp [isStale, hmp, hstale]
        simp only [if_neg hstale, List.append_eq]
        rw [ih (k + 1) acc hmeta' hrm']
        have hk : k + 1 + ps.length = k + (p :: ps).length := by
          simp [List.length_cons]; omega
        rw [hk]
        simp [List.filter_cons, hs]

/-- Full run over a listing with no iteration errors, all metadata readable and
all deletions succeeding, under a constant clock: success, deleting exactly the
stale entries in listing order. -/
theorem cleanupSweep_all_ok (days now : Int) (fs : FileSystem)
    (entries : List String)
    (hmeta : ∀ p ∈ entries, (fs.modifiedTime p).isOk = true)
    (hrm : ∀ p ∈ entries, (fs.removeFile p).isOk = true) :
    cleanupSweep days (fun _ => now) fs (entries.map some) 0 [] =
      (.ok (), entries.filter (isStale days now fs)) := by
  have h := cleanupSweep_front_ok days now fs entries [] 0 [] hmeta hrm
  simpa [cleanupSweep] using h

/-- A clock that is constant in value can be replaced by the literal constant
clock without changing the loop's behavior. -/
theorem cleanupSweep_clock_const (days : Int) (clock : Nat → Int) (now : Int)
    (fs : FileSystem) (h : ∀ k, clock k = now) :
    ∀ (es : List (Option String)) (k : Nat) (acc : List String),
    cleanupSweep days clock fs es k acc =
      cleanupSweep days (fun _ => now) fs es k acc := by
  intro es
  induction es with
  | nil => intro k acc; rfl
  | cons hd tl ih =>
    intro k acc
    cases hd with
    | none =>
      simp only [cleanupSweep]
      exact ih k acc
    | some path =>
      simp only [cleanupSweep, h k]
      cases hmp : fs.modifiedTime path with
      | err e => simp
      | ok m =>
        simp only []
        by_cases hc : numDays (now - m) > days
        · simp only [if_pos hc]
          cases hrp : fs.removeFile path with
          | err e => simp
          | ok u => simp only []; exact ih (k + 1) (acc ++ [path])
        · simp only [if_neg hc]
          exact ih (k + 1) acc

/-- The loop reads the filesystem only through `modifiedTime` and `removeFile`,
never through `readDir`. -/
theorem cleanupSweep_fs_congr (days : Int) (clock : Nat → Int) (fs fs2 : FileSystem)
    (hmt : ∀ p, fs2.modifiedTime p = fs.modifiedTime p)
    (hrm : ∀ p, fs2.removeFile p = fs.removeFile p) :
    ∀ (es : List (Option String)) (k : Nat) (acc : List String),
    cleanupSweep days clock fs es k acc = cleanupSweep days clock fs2 es k acc := by
  intro es
  induction es with
  | nil => intro k acc; rfl
  | cons hd tl ih =>
    intro k acc
    cases hd with
    | none =>
      simp only [cleanupSweep]
      exact ih k acc
    | some path =>
      simp only [cleanupSweep, hmt path, hrm path]
      cases hmp : fs.modifiedTime path with
      | err e => simp
      | ok m =>
        simp only []
        by_cases hc : numDays (clock k - m) > days
        · simp only [if_pos hc]
          cases hrp : fs.removeFile path with
          | err e => simp
          | ok u => simp only []; exact ih (k + 1) (acc ++ [path])
        · simp only [if_neg hc]
          exact ih (k + 1) acc

/-- Dropping the listing's `Err` iteration items (`none`) before the loop does not
change the loop's behavior: the loop itself already skips them, produces no error
for them, and consumes no clock reading on them. -/
theorem cleanupSweep_reduceOption (days : Int) (clock : Nat → Int) (fs : FileSystem) :
    ∀ (es : List (Option String)) (k : Nat) (acc : List String),
    cleanupSweep days clock fs es k acc =
      cleanupSweep days clock fs (es.reduceOption.map some) k acc := by
  intro es
  induction es with
  | nil => intro k acc; rfl
  | cons hd tl ih =>
    intro k acc
    cases hd with
    | none =>
      rw [List.reduceOption_cons_of_none]
      simp only [cleanupSweep]
      exact ih k acc
    | some path =>
      rw [List.reduceOption_cons_of_some]
      simp only [List.map_cons, cleanupSweep]
      cases hmp : fs.modifiedTime path with
      | err e => simp
      | ok m =>
        simp only []
        by_cases hc : numDays (clock k - m) > days
        · simp only [if_pos hc]
          cases hrp : fs.removeFile path with
          | err e => simp
          | ok u => simp only []; exact ih (k + 1) (acc ++ [path])
        · simp only [if_neg hc]
          exact ih (k + 1) acc

/-- The staleness test depends on the filesystem only through `modifiedTime`. -/
theorem isStale_congr (days now : Int) (fs fs2 : FileSystem)
    (h : ∀ p, fs2.modifiedTime p = fs.modifiedTime p) (p : String) :
    isStale days now fs2 p = isStale days now fs p := by
  unfold isStale
  rw [h p]

/-! Claim theorems. -/

/-- C1: for every directory whose listing, metadata reads and deletions all
succeed, `cleanup_files_immediately` (run at one fixed observation instant)
returns success and deletes exactly the files whose whole-day age strictly
exceeds `days`, leaving every other file untouched; in particular, if no file is
stale it performs zero deletions and returns success. -/
theorem cleanup_deletes_exactly_stale {P H : Type} (c : LogCleaner P H) (now : Int)
    (fs : FileSystem) (entries : List String)
    (hls : fs.readDir = .ok (entries.map some))
    (hmeta : ∀ p ∈ entries, (fs.modifiedTime p).isOk = true)
    (hrm : ∀ p ∈ entries, (fs.removeFile p).isOk = true) :
    c.cleanup_files_immediately (fun _ => now) fs =
      (.ok (), entries.filter (isStale c.days now fs)) ∧
    ((∀ p ∈ entries, isStale c.days now fs p = false) →
      c.cleanup_files_immediately (fun _ => now) fs = (.ok (), [])) := by
  have h1 : c.cleanup_files_immediately (fun _ => now) fs =
      (.ok (), entries.filter (isStale c.days now fs)) := by
    unfold LogCleaner.cleanup_files_immediately
    rw [hls]
    exact cleanupSweep_all_ok c.days now fs entries hmeta hrm
  refine ⟨h1, fun hnone => ?_⟩
  rw [h1]
  have hfil : entries.filter (isStale c.days now fs) = [] :=
    List.filter_eq_nil_iff.mpr (fun p hp => by simp [hnone p hp])
  rw [hfil]

/-- Witness for C1 at a concrete directory: of a 41-day-old file and a 1-day-old
file under a 30-day policy, exactly the old one is deleted; on the already-clean
directory nothing is deleted. -/
theorem cleanup_deletes_exactly_stale_witness :
    cleanerThirty.cleanup_files_immediately (fun _ => nowAt41) fsStale =
      (.ok (), ["old.log"]) ∧
    cleanerThirty.cleanup_files_immediately (fun _ => nowAt41) fsCleaned =
      (.ok (), []) := by
  constructor
  · have h := (cleanup_deletes_exactly_stale cleanerThirty nowAt41 fsStale
      ["old.log", "new.log"] rfl (by decide) (by decide)).1
    exact h.trans (by decide)
  · exact (cleanup_deletes_exactly_stale cleanerThirty nowAt41 fsCleaned
      ["new.log"] rfl (by decide) (by decide)).2 (by decide)

/-- C3: `cleanup_files_immediately` fails fast. A listing failure yields the
directory-unreadable error before any deletion; after a cleanly processed initial
segment, a metadata failure on the next entry aborts the whole run with the
metadata-unavailable error (the entry is not skipped), and a delete failure
aborts with the delete-failed error carrying the path; in both cases exactly the
stale files of the initial segment have been deleted and every later entry is
unprocessed. -/
theorem cleanup_fail_fast {P H : Type} (c : LogCleaner P H) (now : Int)
    (fs : FileSystem) (pre : List String) (p : String) (post : List (Option String))
    (e : String) (m : Int) :
    (fs.readDir = .err e →
      c.cleanup_files_immediately (fun _ => now) fs =
        (.err (.directoryUnreadable e), [])) ∧
    (fs.readDir = .ok (pre.map some ++ some p :: post) →
     (∀ q ∈ pre, (fs.modifiedTime q).isOk = true) →
     (∀ q ∈ pre, (fs.removeFile q).isOk = true) →
     fs.modifiedTime p = .err e →
      c.cleanup_files_immediately (fun _ => now) fs =
        (.err (.metadataUnavailable e), pre.filter (isStale c.days now fs))) ∧
    (fs.readDir = .ok (pre.map some ++ some p :: post) →
     (∀ q ∈ pre, (fs.modifiedTime q).isOk = true) →
     (∀ q ∈ pre, (fs.removeFile q).isOk = true) →
     fs.modifiedTime p = .ok m → numDays (now - m) > c.days →
     fs.removeFile p = .err e →
      c.cleanup_files_immediately (fun _ => now) fs =
        (.err (.deleteFailed p e), pre.filter (isStale c.days now fs))) := by
  refine ⟨fun hdir => ?_, fun hls hmeta hrm hmp => ?_,
    fun hls hmeta hrm hmp hstale hrp => ?_⟩
  · unfold LogCleaner.cleanup_files_immediately
    rw [hdir]
  · unfold LogCleaner.cleanup_files_immediately
    rw [hls]
    show cleanupSweep c.days (fun _ => now) fs (pre.map some ++ some p :: post) 0 [] = _
    rw [cleanupSweep_front_ok c.days now fs pre (some p :: post) 0 [] hmeta hrm]
    simp [cleanupSweep, hmp]
  · unfold LogCleaner.cleanup_files_immediately
    rw [hls]
    show cleanupSweep c.days (fun _ => now) fs (pre.map some ++ some p :: post) 0 [] = _
    rw [cleanupSweep_front_ok c.days now fs pre (some p :: post) 0 [] hmeta hrm]
    simp [cleanupSweep, hmp, hstale, hrp]

/-- Witness for C3 at concrete directories: an unreadable listing, a metadata
failure on the second entry after the stale first entry was deleted, and a delete
failure on the second entry after the first was deleted, each aborting with the
corresponding error and leaving the third entry unprocessed. -/
theorem cleanup_fail_fast_witness :
    cleanerThirty.cleanup_files_immediately (fun _ => nowAt41) fsUnreadable =
      (.err (.directoryUnreadable "permission denied"), []) ∧
    cleanerThirty.cleanup_files_immediately (fun _ => nowAt41) fsBadMeta =
      (.err (.metadataUnavailable "stat failed"), ["old.log"]) ∧
    cleanerThirty.cleanup_files_immediately (fun _ => nowAt41) fsBadDelete =
      (.err (.deleteFailed "locked.log" "busy"), ["old.log"]) := by
  refine ⟨?_, ?_, ?_⟩
  · exact (cleanup_fail_fast cleanerThirty nowAt41 fsUnreadable [] "x" []
      "permission denied" 0).1 rfl
  · have h := (cleanup_fail_fast cleanerThirty nowAt41 fsBadMeta ["old.log"]
      "ghost.log" [some "late.log"] "stat failed" 0).2.1 rfl (by decide) (by decide)
      (by decide)
    exact h.trans (by decide)
  · have h := (cleanup_fail_fast cleanerThirty nowAt41 fsBadDelete ["old.log"]
      "locked.log" [some "late.log"] "busy" 0).2.2 rfl (by decide) (by decide)
      (by decide) (by decide) (by decide)
    exact h.trans (by decide)

/-- C9: `days` is a signed integer stored by `LogCleaner::new` without validation,
and for every negative `days`, a run over a directory whose files all have
readable metadata (and non-negative age, so that every whole-day age strictly
exceeds the negative threshold) deletes every file in the directory. -/
theorem cleanup_negative_days_deletes_all {P H : Type} (dir : P) (h : H)
    (days now : Int) (fs : FileSystem) (entries : List String)
    (hday : days < 0)
    (hls : fs.readDir = .ok (entries.map some))
    (hmeta : ∀ p ∈ entries, ∃ m, fs.modifiedTime p = .ok m ∧ m ≤ now)
    (hrm : ∀ p ∈ entries, (fs.removeFile p).isOk = true) :
    (LogCleaner.new dir days none h).days = days ∧
    (LogCleaner.new dir days none h).cleanup_files_immediately (fun _ => now) fs =
      (.ok (), entries) := by
  refine ⟨rfl, ?_⟩
  have hmeta' : ∀ p ∈ entries, (fs.modifiedTime p).isOk = true := by
    intro p hp
    obtain ⟨m, hm, _⟩ := hmeta p hp
    simp [hm, Result.isOk]
  have hstale : ∀ p ∈ entries, isStale days now fs p = true := by
    intro p hp
    obtain ⟨m, hm, hle⟩ := hmeta p hp
    have h0 : (0 : Int) ≤ numDays (now - m) :=
      Int.tdiv_nonneg (by omega) (by norm_num)
    simp only [isStale, hm, decide_eq_true_eq]
    exact lt_of_lt_of_le hday h0
  unfold LogCleaner.cleanup_files_immediately
  rw [hls]
  show cleanupSweep days (fun _ => now) fs (entries.map some) 0 [] = (.ok (), entries)
  rw [cleanupSweep_all_ok days now fs entries hmeta' hrm]
  rw [List.filter_eq_self.mpr hstale]

/-- Witness for C9: with `days = -1`, both files of a two-file directory (each of
age zero days) are deleted. -/
theorem cleanup_negative_days_witness :
    cleanerNeg.days = -1 ∧
    cleanerNeg.cleanup_files_immediately (fun _ => (0 : Int)) fsTwo =
      (.ok (), ["a.log", "b.log"]) := by
  have h := cleanup_negative_days_deletes_all "/opt/logs/apps/" () (-1) 0 fsTwo
    ["a.log", "b.log"] (by norm_num) rfl
    (fun p _ => ⟨0, rfl, le_refl 0⟩) (by decide)
  exact ⟨h.1, h.2⟩

/-- C10: a directory entry that yields an I/O error while iterating the listing
(an `Err` item of the `read_dir` iterator, as opposed to the initial open, a
metadata read or a delete) is silently skipped: the run over a listing with such
items is identical to the run over the listing with them removed, so a skipped
item produces no error value and the remaining entries are still processed. -/
theorem cleanup_skips_iteration_errors {P H : Type} (c : LogCleaner P H)
    (clock : Nat → Int) (es : List (Option String))
    (mt : String → Result String Int) (rm : String → Result String Unit) :
    c.cleanup_files_immediately clock ⟨.ok es, mt, rm⟩ =
      c.cleanup_files_immediately clock ⟨.ok (es.reduceOption.map some), mt, rm⟩ := by
  unfold LogCleaner.cleanup_files_immediately
  show cleanupSweep c.days clock ⟨.ok es, mt, rm⟩ es 0 [] =
    cleanupSweep c.days clock ⟨.ok (es.reduceOption.map some), mt, rm⟩
      (es.reduceOption.map some) 0 []
  rw [cleanupSweep_reduceOption c.days clock ⟨.ok es, mt, rm⟩ es 0 []]
  exact cleanupSweep_fs_congr c.days clock ⟨.ok es, mt, rm⟩
    ⟨.ok (es.reduceOption.map some), mt, rm⟩ (fun _ => rfl) (fun _ => rfl)
    (es.reduceOption.map some) 0 []

/-- C6 counterexample: the source reads `Utc::now()` afresh for each entry, not
once per run. With two files of equal modified time and a clock that crosses a
day boundary between the two readings, the per-entry-clock run deletes the second
file while the captured-once run (cutoff fixed at the first reading) deletes
nothing, so the two disagree. -/
theorem cleanup_per_entry_now_counterexample :
    cleanerZero.cleanup_files_immediately clockDrift fsTwo ≠
      cleanerZero.cleanup_once_captured clockDrift fsTwo := by decide

/-- C6 amended: "now" is read afresh for every entry rather than captured once per
run; the run coincides with the captured-once cutoff semantics whenever the clock
does not advance during the run (it returns the same value at every reading). -/
theorem cleanup_const_clock_once_captured {P H : Type} (c : LogCleaner P H)
    (clock : Nat → Int) (fs : FileSystem) (h : ∀ k, clock k = clock 0) :
    c.cleanup_files_immediately clock fs = c.cleanup_once_captured clock fs := by
  unfold LogCleaner.cleanup_once_captured LogCleaner.cleanup_files_immediately
  cases hls : fs.readDir with
  | err e => rfl
  | ok es =>
    simp only []
    exact cleanupSweep_clock_const c.days clock (clock 0) fs h es 0 []

/-- Witness for the amended C6 at a constant clock: per-entry reading and
captured-once reading agree on the stale directory. -/
theorem cleanup_const_clock_witness :
    cleanerThirty.cleanup_files_immediately (fun _ => nowAt41) fsStale =
      cleanerThirty.cleanup_once_captured (fun _ => nowAt41) fsStale :=
  cleanup_const_clock_once_captured cleanerThirty (fun _ => nowAt41) fsStale
    (fun _ => rfl)

/-- C8: idempotence on an already-cleaned directory. If a run over `entries`
succeeds (listing, metadata reads and deletions all succeeding, one fixed
observation instant), then a second run in succession — over the same directory
now holding exactly the files the first run did not delete, with unchanged
metadata and deletion behavior — deletes nothing and still reports success. -/
theorem cleanup_idempotent_on_cleaned {P H : Type} (c : LogCleaner P H) (now : Int)
    (fs fs2 : FileSystem) (entries : List String)
    (hls : fs.readDir = .ok (entries.map some))
    (hmeta : ∀ p ∈ entries, (fs.modifiedTime p).isOk = true)
    (hrm : ∀ p ∈ entries, (fs.removeFile p).isOk = true)
    (hls2 : fs2.readDir = .ok ((entries.filter (fun p =>
        decide (p ∉ (c.cleanup_files_immediately (fun _ => now) fs).2))).map some))
    (hmt2 : ∀ p, fs2.modifiedTime p = fs.modifiedTime p)
    (hrm2 : ∀ p, fs2.removeFile p = fs.removeFile p) :
    (c.cleanup_files_immediately (fun _ => now) fs).1 = .ok () ∧
    c.cleanup_files_immediately (fun _ => now) fs2 = (.ok (), []) := by
  have h1 : c.cleanup_files_immediately (fun _ => now) fs =
      (.ok (), entries.filter (isStale c.days now fs)) := by
    unfold LogCleaner.cleanup_files_immediately
    rw [hls]
    exact cleanupSweep_all_ok c.days now fs entries hmeta hrm
  refine ⟨by rw [h1], ?_⟩
  have h2 : fs2.readDir = .ok ((entries.filter (fun p =>
      decide (p ∉ entries.filter (isStale c.days now fs)))).map some) := by
    rw [hls2, h1]
  have hmetaR : ∀ p ∈ entries.filter (fun p =>
      decide (p ∉ entries.filter (isStale c.days now fs))),
      (fs2.modifiedTime p).isOk = true := by
    intro p hp
    rw [hmt2 p]
    exact hmeta p (List.mem_filter.mp hp).1
  have hrmR : ∀ p ∈ entries.filter (fun p =>
      decide (p ∉ entries.filter (isStale c.days now fs))),
      (fs2.removeFile p).isOk = true := by
    intro p hp
    rw [hrm2 p]
    exact hrm p (List.mem_filter.mp hp).1
  have h3 := cleanupSweep_all_ok c.days now fs2
    (entries.filter (fun p => decide (p ∉ entries.filter (isStale c.days now fs))))
    hmetaR hrmR
  have h4 : (entries.filter (fun p =>
      decide (p ∉ entries.filter (isStale c.days now fs)))).filter
        (isStale c.days now fs2) = [] := by
    apply List.filter_eq_nil_iff.mpr
    intro p hp
    have hmem := List.mem_filter.mp hp
    have hpe : p ∈ entries := hmem.1
    have hnot : p ∉ entries.filter (isStale c.days now fs) :=
      of_decide_eq_true hmem.2
    rw [isStale_congr c.days now fs fs2 hmt2 p]
    intro hst
    exact hnot (List.mem_filter.mpr ⟨hpe, hst⟩)
  unfold LogCleaner.cleanup_files_immediately
  rw [h2]
  show cleanupSweep c.days (fun _ => now) fs2 ((entries.filter (fun p =>
      decide (p ∉ entries.filter (isStale c.days now fs)))).map some) 0 [] =
    (.ok (), [])
  rw [h3, h4]

/-- Witness for C8: after the first run deletes the 41-day-old file, the second
run over the remaining directory deletes nothing and succeeds. -/
theorem cleanup_idempotent_witness :
    (cleanerThirty.cleanup_files_immediately (fun _ => nowAt41) fsStale).1 =
      .ok () ∧
    cleanerThirty.cleanup_files_immediately (fun _ => nowAt41) fsCleaned =
      (.ok (), []) :=
  cleanup_idempotent_on_cleaned cleanerThirty nowAt41 fsStale fsCleaned
    ["old.log", "new.log"] rfl (by decide) (by decide) (by decide)
    (fun _ => rfl) (fun _ => rfl)

/-- C2 counterexample: with the cell initialized by `init_logger` for target "app"
at INFO, changing the reloadable filter through the returned handle to DEBUG
leaves the console sink observing the new filter but the file sink still
observing the initial one: the sinks do not share the reloadable filter. -/
theorem init_logger_shared_filter_counterexample :
    effectiveFilter
        (reloadModify (init_logger envProd "app" [] false none).cellInit
          [("app", LevelFilter.DEBUG)])
        (init_logger envProd "app" [] false none).consoleFilter ≠
      effectiveFilter
        (reloadModify (init_logger envProd "app" [] false none).cellInit
          [("app", LevelFilter.DEBUG)])
        (init_logger envProd "app" [] false none).fileFilter := by decide

/-- C2 amended: the two sinks observe the same threshold at initialization, but
only the console sink is wired to the reloadable cell: after a threshold change
through the returned handle, the console sink observes the new filter while the
file sink still observes its own fixed copy of the initial filter, so a change
through the handle does not change what the file sink accepts. -/
theorem init_logger_filter_wiring (env : Env) (bin : String) (crates : List String)
    (debug : Bool) (dir : Option String) (new_filter : Targets) :
    effectiveFilter (init_logger env bin crates debug dir).cellInit
        (init_logger env bin crates debug dir).consoleFilter =
      effectiveFilter (init_logger env bin crates debug dir).cellInit
        (init_logger env bin crates debug dir).fileFilter ∧
    effectiveFilter
        (reloadModify (init_logger env bin crates debug dir).cellInit new_filter)
        (init_logger env bin crates debug dir).consoleFilter = new_filter ∧
    effectiveFilter
        (reloadModify (init_logger env bin crates debug dir).cellInit new_filter)
        (init_logger env bin crates debug dir).fileFilter =
      (init_logger env bin crates debug dir).cellInit :=
  ⟨rfl, rfl, rfl⟩

/-- C4: `log_path` applies its precedence with first match winning: in
development mode it returns the platform temporary directory for every
combination of the other inputs; otherwise an explicit path is returned trimmed
of surrounding whitespace; otherwise a set environment variable's value is
returned; otherwise (variable unset or no variable named) the fixed default
"/opt/logs/apps/". Being a total Lean function of its explicit oracles, it never
fails and has no side effects. -/
theorem log_path_precedence (env : Env) (p key val : String) :
    (debug_mode env = true → ∀ lp k, log_path env lp k = env.temp_dir) ∧
    (debug_mode env = false → ∀ k, log_path env (some p) k = p.trim) ∧
    (debug_mode env = false → env.vars key = some val →
      log_path env none (some key) = val) ∧
    (debug_mode env = false → env.vars key = none →
      log_path env none (some key) = "/opt/logs/apps/") ∧
    (debug_mode env = false → log_path env none none = "/opt/logs/apps/") := by
  refine ⟨fun hd lp k => ?_, fun hd k => ?_, fun hd hv => ?_, fun hd hv => ?_,
    fun hd => ?_⟩
  · simp [log_path, hd]
  · simp [log_path, hd]
  · simp [log_path, hd, hv]
  · simp [log_path, hd, hv]
  · simp [log_path, hd]

/-- Witness for C4 at concrete environments: dev mode wins, then the explicit
path (trimmed), then the set environment variable, then the default for an unset
variable and for no variable. -/
theorem log_path_precedence_witness :
    log_path envDev none none = "/tmp" ∧
    log_path envProd (some " /a/b/c ") none = (" /a/b/c ").trim ∧
    log_path envProd none (some "LOG_PATH") = "/xx/xx" ∧
    log_path envProd none (some "MISSING") = "/opt/logs/apps/" ∧
    log_path envProd none none = "/opt/logs/apps/" := by
  refine ⟨?_, ?_, ?_, ?_, ?_⟩
  · exact (log_path_precedence envDev "x" "k" "v").1 (by decide) none none
  · exact (log_path_precedence envProd " /a/b/c " "k" "v").2.1 (by decide) none
  · exact (log_path_precedence envProd "x" "LOG_PATH" "/xx/xx").2.2.1 (by decide)
      (by decide)
  · exact (log_path_precedence envProd "x" "MISSING" "v").2.2.2.1 (by decide)
      (by decide)
  · exact (log_path_precedence envProd "x" "k" "v").2.2.2.2 (by decide)

/-- C5: at every scheduled trigger, a failed cleanup run invokes the error
handler exactly once with that failure and the schedule continues to the next
trigger; a successful run invokes the handler not at all; and with registration
succeeding, trigger failures are never propagated out of
`schedule_cleanup_log_files`, which still returns success. -/
theorem schedule_handler_per_failed_trigger {P H : Type} (c : LogCleaner P H)
    (t : TriggerCtx) (rest : List TriggerCtx) (env : SchedEnv)
    (e : RemoveFilesError) :
    ((c.cleanup_files_immediately t.clock t.fs).1 = .err e →
      triggerBody c t = [e] ∧
      scheduleRun c (t :: rest) = e :: scheduleRun c rest) ∧
    ((c.cleanup_files_immediately t.clock t.fs).1 = .ok () →
      triggerBody c t = [] ∧ scheduleRun c (t :: rest) = scheduleRun c rest) ∧
    (env.new_err = none → env.job_new_err c.effective_cron = none →
     env.add_err = none → env.start_err = none →
      (c.schedule_cleanup_log_files env (t :: rest)).1 = .ok ()) := by
  refine ⟨fun herr => ?_, fun hok => ?_, fun h1 h2 h3 h4 => ?_⟩
  · exact ⟨by simp [triggerBody, herr], by simp [scheduleRun, triggerBody, herr]⟩
  · exact ⟨by simp [triggerBody, hok], by simp [scheduleRun, triggerBody, hok]⟩
  · simp [LogCleaner.schedule_cleanup_log_files, h1, h2, h3, h4]

/-- Witness for C5: a failing trigger (unreadable directory) is reported to the
handler exactly once and the following successful trigger adds no invocation;
with all registration steps succeeding the schedule call itself returns
success. -/
theorem schedule_handler_witness :
    triggerBody cleanerThirty trigFail =
      [.directoryUnreadable "permission denied"] ∧
    scheduleRun cleanerThirty [trigFail, trigOk] =
      [.directoryUnreadable "permission denied"] ∧
    triggerBody cleanerThirty trigOk = [] ∧
    (cleanerThirty.schedule_cleanup_log_files schedOk [trigFail, trigOk]).1 =
      .ok () := by
  have hfail := (schedule_handler_per_failed_trigger cleanerThirty trigFail
    [trigOk] schedOk (.directoryUnreadable "permission denied")).1 (by decide)
  have hok := (schedule_handler_per_failed_trigger cleanerThirty trigOk []
    schedOk (.directoryUnreadable "x")).2.1 (by decide)
  have hreg := (schedule_handler_per_failed_trigger cleanerThirty trigFail
    [trigOk] schedOk (.directoryUnreadable "x")).2.2 rfl rfl rfl rfl
  exact ⟨hfail.1, hfail.2.trans (by decide), hok.1, hreg⟩

/-- C7: the job is registered with the cron expression "0 0 0 * * * *" whenever
the caller supplies none, and a failure of any registration step
(`JobScheduler::new`, `Job::new_async` on a malformed cron expression,
`sched.add`, `sched.start`) is returned synchronously from the schedule call with
no error-handler invocation at all. -/
theorem schedule_registration_errors {P H : Type} (c : LogCleaner P H)
    (env : SchedEnv) (triggers : List TriggerCtx) (e : String) :
    (c.cron_expression = none → c.effective_cron = "0 0 0 * * * *") ∧
    (env.new_err = some e →
      c.schedule_cleanup_log_files env triggers =
        (.err (.schedulerError e), [])) ∧
    (env.new_err = none → env.job_new_err c.effective_cron = some e →
      c.schedule_cleanup_log_files env triggers =
        (.err (.schedulerError e), [])) ∧
    (env.new_err = none → env.job_new_err c.effective_cron = none →
     env.add_err = some e →
      c.schedule_cleanup_log_files env triggers =
        (.err (.schedulerError e), [])) ∧
    (env.new_err = none → env.job_new_err c.effective_cron = none →
     env.add_err = none → env.start_err = some e →
      c.schedule_cleanup_log_files env triggers =
        (.err (.schedulerError e), [])) := by
  refine ⟨fun hc => ?_, fun h1 => ?_, fun h1 h2 => ?_, fun h1 h2 h3 => ?_,
    fun h1 h2 h3 h4 => ?_⟩
  · simp [LogCleaner.effective_cron, hc]
  · simp [LogCleaner.schedule_cleanup_log_files, h1]
  · simp [LogCleaner.schedule_cleanup_log_files, h1, h2]
  · simp [LogCleaner.schedule_cleanup_log_files, h1, h2, h3]
  · simp [LogCleaner.schedule_cleanup_log_files, h1, h2, h3, h4]

/-- Witness for C7: the default cron expression for a cleaner constructed with
none, and each concrete registration failure returned synchronously with zero
handler invocations. -/
theorem schedule_registration_witness :
    cleanerThirty.effective_cron = "0 0 0 * * * *" ∧
    cleanerThirty.schedule_cleanup_log_files schedNewFails [trigOk] =
      (.err (.schedulerError "engine down"), []) ∧
    cleanerThirty.schedule_cleanup_log_files schedBadCron [trigOk] =
      (.err (.schedulerError "bad cron: 0 0 0 * * * *"), []) ∧
    cleanerThirty.schedule_cleanup_log_files schedAddFails [trigOk] =
      (.err (.schedulerError "add failed"), []) ∧
    cleanerThirty.schedule_cleanup_log_files schedStartFails [trigOk] =
      (.err (.schedulerError "start failed"), []) := by
  refine ⟨?_, ?_, ?_, ?_, ?_⟩
  · exact (schedule_registration_errors cleanerThirty schedOk [] "x").1 rfl
  · exact (schedule_registration_errors cleanerThirty schedNewFails [trigOk]
      "engine down").2.1 rfl
  · exact (schedule_registration_errors cleanerThirty schedBadCron [trigOk]
      "bad cron: 0 0 0 * * * *").2.2.1 rfl (by decide)
  · exact (schedule_registration_errors cleanerThirty schedAddFails [trigOk]
      "add failed").2.2.2.1 rfl rfl rfl
  · exact (schedule_registration_errors cleanerThirty schedStartFails [trigOk]
      "start failed").2.2.2.2 rfl rfl rfl rfl

end Busylib
